import Mathlib

/-!
Verification of the Stonkulator dashboard core (stonkulator.py / main.py).

The price history is modelled as a column-oriented table (the pandas
DataFrame returned by the provider), with exact rationals in place of
IEEE floats.  The two identical pipelines in stonkulator.py and main.py
are embedded once:

* pandas pct_change        -> pctChange
* pandas ewm(span=s).mean  -> ewmMean (adjust=True default: running
                              weighted numerator/denominator pair)
* pandas Series.mean       -> meanQ   (none on an empty series, as NaN)
* pandas Series.std        -> sample variance sampleVarQ (ddof=1: none
                              on fewer than two values, as NaN)
* fetch_stock_data         -> fetch_stock_data (none models both the
                              provider-failure path and the raised and
                              caught empty-data ValueError)
* create_stock_chart       -> create_stock_chart
* create_stats_panel       -> create_stats_panel / summarizeE
-/

/-- One fetched price table: the OHLCV columns of the DataFrame, plus its
date index.  Columns are aligned (same number of rows). -/
structure PriceHistory where
  dates : List Nat
  open_ : List ℚ
  high : List ℚ
  low : List ℚ
  close : List ℚ
  volume : List ℚ
deriving Repr, DecidableEq

/-- Number of rows of the table (len(data)). -/
def PriceHistory.nrows (h : PriceHistory) : Nat := h.close.length

/-- DataFrame.empty: the table has no rows. -/
def PriceHistory.isEmpty (h : PriceHistory) : Bool := h.close.isEmpty

/-- Helper for pct_change: given the previous value, emit the fractional
change of each subsequent value. -/
def pctChangeAux : ℚ → List ℚ → List (Option ℚ)
  | _, [] => []
  | prev, y :: ys => some ((y - prev) / prev) :: pctChangeAux y ys

/-- pandas Series.pct_change: first entry is NaN (modelled as none), entry
i is (x[i] - x[i-1]) / x[i-1]. -/
def pctChange : List ℚ → List (Option ℚ)
  | [] => []
  | x :: xs => none :: pctChangeAux x xs

/-- pandas ewm(...).mean() with adjust=True: carries the running weighted
numerator and denominator and emits their quotient at each row. -/
def ewmAux (a : ℚ) : ℚ → ℚ → List ℚ → List ℚ
  | _, _, [] => []
  | num, den, x :: xs =>
      ((x + (1 - a) * num) / (1 + (1 - a) * den)) ::
        ewmAux a (x + (1 - a) * num) (1 + (1 - a) * den) xs

/-- pandas Series.ewm(span=s).mean() with smoothing factor a. -/
def ewmMean (a : ℚ) (xs : List ℚ) : List ℚ := ewmAux a 0 0 xs

/-- Smoothing factor derived from a span: a = 2 / (s + 1). -/
def alphaOfSpan (s : ℚ) : ℚ := 2 / (s + 1)

/-- The fetched table after fetch_stock_data added the four derived
columns Returns, EMA_9, EMA_50, EMA_200. -/
structure EnrichedHistory where
  base : PriceHistory
  returns : List (Option ℚ)
  ema9 : List ℚ
  ema50 : List ℚ
  ema200 : List ℚ
deriving Repr, DecidableEq

/-- The calculated-fields block of fetch_stock_data (lines 28-31 of
stonkulator.py): add Returns and the three EMAs of Close. -/
def enrich (h : PriceHistory) : EnrichedHistory :=
  { base := h
    returns := pctChange h.close
    ema9 := ewmMean (alphaOfSpan 9) h.close
    ema50 := ewmMean (alphaOfSpan 50) h.close
    ema200 := ewmMean (alphaOfSpan 200) h.close }

/-- fetch_stock_data: the provider either fails (none) or returns a
table; an empty table raises ValueError which the function itself catches
and turns into None, so the caller sees none in both cases.  A non-empty
table is returned with the derived columns added. -/
def fetch_stock_data (fetched : Option PriceHistory) : Option EnrichedHistory :=
  match fetched with
  | none => none
  | some h => if h.isEmpty then none else some (enrich h)

/-- One plotly Scatter trace of the chart: its legend name and its y
series.  Styling constants are fixed configuration and not modelled. -/
structure TraceSpec where
  name : String
  ys : List ℚ
deriving Repr, DecidableEq

/-- The chart produced by create_stock_chart: its ordered trace list and
whether the "No data available" annotation was added. -/
structure ChartSpec where
  traces : List TraceSpec
  noDataNote : Bool
deriving Repr, DecidableEq

/-- create_stock_chart: on None or an empty table returns an empty figure
with the "No data available" annotation, otherwise the Close trace
followed by the three EMA traces (the EMA columns are always present on
an enriched table, so the three column-membership tests succeed). -/
def create_stock_chart (data : Option EnrichedHistory) (symbol : String) : ChartSpec :=
  match data with
  | none => { traces := [], noDataNote := true }
  | some d =>
      if d.base.isEmpty then { traces := [], noDataNote := true }
      else
        { traces :=
            [ { name := symbol ++ " Close", ys := d.base.close }
            , { name := "EMA 9", ys := d.ema9 }
            , { name := "EMA 50", ys := d.ema50 }
            , { name := "EMA 200", ys := d.ema200 } ]
          noDataNote := false }

/-- pandas Series.dropna on the Returns column: keep the defined values. -/
def definedReturns (rs : List (Option ℚ)) : List ℚ := rs.filterMap id

/-- pandas Series.mean: NaN (none) on an empty series, else the
arithmetic mean. -/
def meanQ (xs : List ℚ) : Option ℚ :=
  if xs.isEmpty then none else some (xs.sum / (xs.length : ℚ))

/-- pandas Series.var with the default ddof=1 (sample variance): NaN
(none) on fewer than two values. -/
def sampleVarQ (xs : List ℚ) : Option ℚ :=
  if xs.length < 2 then none
  else some ((xs.map (fun x => (x - xs.sum / (xs.length : ℚ)) ^ 2)).sum /
    ((xs.length : ℚ) - 1))

/-- The key metrics computed by create_stats_panel, as a value object.
The annualized volatility goes through a real square root (returns.std()
is the square root of the sample variance), hence the real-valued field;
it and the annualized return are none when pandas would produce NaN. -/
structure StatisticsSummary where
  currentPrice : ℚ
  prevClose : ℚ
  dailyChange : ℚ
  dailyChangePct : ℚ
  periodReturnPct : ℚ
  annualizedReturnPct : Option ℚ
  annualizedVolatilityPct : Option ℝ
  avgVolume : Option ℚ
  latestVolume : ℚ
  firstDate : Nat
  lastDate : Nat

/-- The metric block of create_stats_panel (lines 101-114 of
stonkulator.py) on a non-empty enriched table. -/
noncomputable def summarizeE (e : EnrichedHistory) : StatisticsSummary :=
  let currentPrice := e.base.close.getLastD 0
  let prevClose := if 1 < e.base.nrows then e.base.close.getD (e.base.nrows - 2) 0
    else currentPrice
  let dailyChange := currentPrice - prevClose
  let periodStart := e.base.close.headD 0
  let rs := definedReturns e.returns
  { currentPrice := currentPrice
    prevClose := prevClose
    dailyChange := dailyChange
    dailyChangePct := dailyChange / prevClose * 100
    periodReturnPct := (currentPrice - periodStart) / periodStart * 100
    annualizedReturnPct := (meanQ rs).map (fun m => m * 252 * 100)
    annualizedVolatilityPct :=
      (sampleVarQ rs).map (fun v => Real.sqrt (v : ℝ) * Real.sqrt 252 * 100)
    avgVolume := meanQ e.base.volume
    latestVolume := e.base.volume.getLastD 0
    firstDate := e.base.dates.headD 0
    lastDate := e.base.dates.getLastD 0 }

/-- The result of create_stats_panel: either the "No data available"
placeholder pane or the statistics block. -/
inductive StatsPanel where
  | noData
  | stats (s : StatisticsSummary)

/-- create_stats_panel: the placeholder on None or an empty table,
otherwise the computed key metrics. -/
noncomputable def create_stats_panel (data : Option EnrichedHistory) : StatsPanel :=
  match data with
  | none => StatsPanel.noData
  | some e => if e.base.isEmpty then StatsPanel.noData else StatsPanel.stats (summarizeE e)

/-- A price table whose Close column is the given list (the other columns
only pad the table so that it is well formed). -/
def historyOfCloses (cs : List ℚ) : PriceHistory :=
  { dates := List.range cs.length
    open_ := cs
    high := cs
    low := cs
    close := cs
    volume := List.replicate cs.length 1000 }

/-- Cumulative weight sum W(i) = sum of (1-a)^k for k = 0..i. -/
def ewmDen (a : ℚ) (i : Nat) : ℚ :=
  Finset.sum (Finset.range (i + 1)) (fun k => (1 - a) ^ k)

/-- Cumulative weighted numerator: sum of (1-a)^k * x[i-k] for k = 0..i. -/
def ewmNumSum (a : ℚ) (xs : List ℚ) (i : Nat) : ℚ :=
  Finset.sum (Finset.range (i + 1)) (fun k => (1 - a) ^ k * xs.getD (i - k) 0)

/-- The cumulative-weighted moving average the spec describes: prior
observations weighted by (1-a)^k, normalized by the sum of the weights
seen so far. -/
def cumWeightedEMA (a : ℚ) (xs : List ℚ) (i : Nat) : ℚ :=
  ewmNumSum a xs i / ewmDen a i

example : pctChange [1, 2] = [none, some 1] := by
  norm_num [pctChange, pctChangeAux]
example : ewmMean (alphaOfSpan 9) [1, 2] = [1, 14/9] := by
  norm_num [ewmMean, ewmAux, alphaOfSpan]
example : cumWeightedEMA (alphaOfSpan 9) [1, 2] 1 = 14/9 := by
  norm_num [cumWeightedEMA, ewmNumSum, ewmDen, alphaOfSpan, Finset.sum_range_succ]
example : meanQ [] = none := by norm_num [meanQ]
example : sampleVarQ [3] = none := by norm_num [sampleVarQ]
example : sampleVarQ [1, 3] = some 2 := by norm_num [sampleVarQ]

/-- The ewm output has one row per input row. -/
lemma ewmAux_length (a n d : ℚ) (xs : List ℚ) :
    (ewmAux a n d xs).length = xs.length := by
  induction xs generalizing n d with
  | nil => rfl
  | cons x xs ih => simp [ewmAux, ih]

/-- Loop invariant of the adjust=True ewm recursion: the entry at index i
is the cumulative weighted sum over the rows seen so far, with the
starting accumulators contributing one further power of the weight. -/
lemma ewmAux_getD (a : ℚ) (xs : List ℚ) :
    ∀ i : Nat, i < xs.length → ∀ n d : ℚ,
      (ewmAux a n d xs).getD i 0 =
        (ewmNumSum a xs i + (1 - a) ^ (i + 1) * n) /
          (ewmDen a i + (1 - a) ^ (i + 1) * d) := by
  induction xs with
  | nil => intro i hi; simp at hi
  | cons x xs ih =>
    intro i hi n d
    cases i with
    | zero =>
      simp [ewmAux, ewmNumSum, ewmDen, Finset.sum_range_one]
    | succ j =>
      have hj : j < xs.length := by
        simpa using Nat.lt_of_succ_lt_succ hi
      have hnum : ewmNumSum a (x :: xs) (j + 1) =
          ewmNumSum a xs j + (1 - a) ^ (j + 1) * x := by
        unfold ewmNumSum
        rw [Finset.sum_range_succ]
        congr 1
        · apply Finset.sum_congr rfl
          intro k hk
          have hk2 : k ≤ j := Nat.lt_succ_iff.mp (Finset.mem_range.mp hk)
          rw [Nat.succ_sub hk2]
          simp
        · simp
      have hden : ewmDen a (j + 1) = ewmDen a j + (1 - a) ^ (j + 1) := by
        unfold ewmDen
        rw [Finset.sum_range_succ]
      calc (ewmAux a n d (x :: xs)).getD (j + 1) 0
          = (ewmAux a (x + (1 - a) * n) (1 + (1 - a) * d) xs).getD j 0 := by
            simp [ewmAux]
        _ = (ewmNumSum a xs j + (1 - a) ^ (j + 1) * (x + (1 - a) * n)) /
              (ewmDen a j + (1 - a) ^ (j + 1) * (1 + (1 - a) * d)) :=
            ih j hj _ _
        _ = (ewmNumSum a (x :: xs) (j + 1) + (1 - a) ^ (j + 1 + 1) * n) /
              (ewmDen a (j + 1) + (1 - a) ^ (j + 1 + 1) * d) := by
            rw [hnum, hden]; ring_nf

/-- The ewm series agrees everywhere with the cumulative weighted
average. -/
lemma ewmMean_getD (a : ℚ) (xs : List ℚ) (i : Nat) (hi : i < xs.length) :
    (ewmMean a xs).getD i 0 = cumWeightedEMA a xs i := by
  have h := ewmAux_getD a xs i hi 0 0
  simpa [ewmMean, cumWeightedEMA] using h

/-- At index 0 the cumulative weighted average is the first value. -/
lemma cumWeightedEMA_zero (a : ℚ) (xs : List ℚ) :
    cumWeightedEMA a xs 0 = xs.getD 0 0 := by
  simp [cumWeightedEMA, ewmNumSum, ewmDen, Finset.sum_range_one]

/-- Peeling the newest row off the cumulative weighted numerator. -/
lemma ewmNumSum_succ (a : ℚ) (xs : List ℚ) (j : Nat) :
    ewmNumSum a xs (j + 1) = xs.getD (j + 1) 0 + (1 - a) * ewmNumSum a xs j := by
  unfold ewmNumSum
  rw [Finset.sum_range_succ']
  simp only [Nat.succ_sub_succ, pow_succ, Nat.sub_zero, pow_zero, one_mul]
  rw [add_comm]
  congr 1
  rw [Finset.mul_sum]
  exact Finset.sum_congr rfl (fun k _ => by ring)

/-- Peeling the newest row off the cumulative weight sum. -/
lemma ewmDen_succ (a : ℚ) (j : Nat) :
    ewmDen a (j + 1) = 1 + (1 - a) * ewmDen a j := by
  unfold ewmDen
  rw [Finset.sum_range_succ']
  simp only [pow_succ, pow_zero]
  rw [add_comm]
  congr 1
  rw [Finset.mul_sum]
  exact Finset.sum_congr rfl (fun k _ => by ring)

/-- With a weight 1-a that is nonnegative the cumulative weight sum is
positive. -/
lemma ewmDen_pos (a : ℚ) (hb : 0 ≤ 1 - a) (i : Nat) : 0 < ewmDen a i := by
  induction i with
  | zero => norm_num [ewmDen]
  | succ j ih =>
    rw [ewmDen_succ]
    have h2 : 0 ≤ (1 - a) * ewmDen a j := mul_nonneg hb ih.le
    linarith

/-- The weighted recursive form the adjust=True series actually obeys:
each value is the newest close plus the decayed previous weighted sum,
renormalized by the new weight total. -/
lemma cumWeightedEMA_succ (a : ℚ) (hb : 0 ≤ 1 - a) (xs : List ℚ) (j : Nat) :
    cumWeightedEMA a xs (j + 1) =
      (xs.getD (j + 1) 0 + (1 - a) * ewmDen a j * cumWeightedEMA a xs j) /
        ewmDen a (j + 1) := by
  have hD : ewmDen a j ≠ 0 := (ewmDen_pos a hb j).ne'
  have key : (1 - a) * ewmDen a j * (ewmNumSum a xs j / ewmDen a j)
      = (1 - a) * ewmNumSum a xs j := by
    rw [mul_assoc, mul_comm (ewmDen a j), div_mul_cancel₀ _ hD]
  unfold cumWeightedEMA
  rw [ewmNumSum_succ, key]

/-- pct_change has one row per input row. -/
lemma pctChangeAux_length (prev : ℚ) (xs : List ℚ) :
    (pctChangeAux prev xs).length = xs.length := by
  induction xs generalizing prev with
  | nil => rfl
  | cons y ys ih => simp [pctChangeAux, ih]

/-- pct_change has one row per input row. -/
lemma pctChange_length (xs : List ℚ) : (pctChange xs).length = xs.length := by
  cases xs with
  | nil => rfl
  | cons x xs => simp [pctChange, pctChangeAux_length]

/-- Index characterization of the pct_change tail: with prev prepended,
entry i is the fractional change from row i to row i+1. -/
lemma pctChangeAux_getD (xs : List ℚ) :
    ∀ i : Nat, i < xs.length → ∀ prev : ℚ,
      (pctChangeAux prev xs).getD i none =
        some (((prev :: xs).getD (i + 1) 0 - (prev :: xs).getD i 0) /
          (prev :: xs).getD i 0) := by
  induction xs with
  | nil => intro i hi; simp at hi
  | cons y ys ih =>
    intro i hi prev
    cases i with
    | zero => simp [pctChangeAux]
    | succ j =>
      have hj : j < ys.length := by
        simpa using Nat.lt_of_succ_lt_succ hi
      simp only [pctChangeAux, List.getD_cons_succ]
      exact ih j hj y

/-- pct_change of a constant tail is constantly zero. -/
lemma pctChangeAux_replicate (c : ℚ) (m : Nat) :
    pctChangeAux c (List.replicate m c) = List.replicate m (some 0) := by
  induction m with
  | zero => rfl
  | succ k ih => simp [List.replicate_succ, pctChangeAux, ih]

/-- pct_change of a constant series: one NaN, then zeros. -/
lemma pctChange_replicate (c : ℚ) (m : Nat) :
    pctChange (List.replicate (m + 1) c) = none :: List.replicate m (some 0) := by
  simp [List.replicate_succ, pctChange, pctChangeAux_replicate]

/-- dropna discards a leading NaN. -/
lemma definedReturns_cons_none (l : List (Option ℚ)) :
    definedReturns (none :: l) = definedReturns l := by
  simp [definedReturns]

/-- dropna keeps every defined value of a constant defined series. -/
lemma definedReturns_replicate_some_zero (m : Nat) :
    definedReturns (List.replicate m (some (0:ℚ))) = List.replicate m 0 := by
  induction m with
  | zero => rfl
  | succ k ih =>
    simp only [List.replicate_succ, definedReturns, List.filterMap_cons] at ih ⊢
    simp [ih]

/-- Mean of a non-empty all-zero series is zero. -/
lemma meanQ_replicate_zero (k : Nat) :
    meanQ (List.replicate (k + 1) (0:ℚ)) = some 0 := by
  simp [meanQ, List.replicate_succ, List.sum_replicate]

/-- Sample variance of an all-zero series with at least two entries is
zero. -/
lemma sampleVarQ_replicate_zero (k : Nat) :
    sampleVarQ (List.replicate (k + 2) (0:ℚ)) = some 0 := by
  unfold sampleVarQ
  rw [List.length_replicate, if_neg (by omega)]
  simp [List.map_replicate, List.sum_replicate]

/-- A table with no rows, as the provider returns it when the symbol has
no data. -/
def hEmpty : PriceHistory := historyOfCloses []

/-- A two-row table with closes 1 and 2. -/
def hTwo : PriceHistory := historyOfCloses [1, 2]

/-- A single-row table with close 100. -/
def hOne : PriceHistory := historyOfCloses [100]

/-- A three-row table with closes 100, 110, 121. -/
def hThree : PriceHistory := historyOfCloses [100, 110, 121]

/-- A flat ten-row table with every close equal to 100. -/
def hFlatTen : PriceHistory := historyOfCloses (List.replicate 10 100)

/-- Chart symbol label used for concrete instantiations. -/
def gspc : String := "^GSPC"

/-- The EMA contract the code actually satisfies for a span s: length
preservation, seeding at close[0], and for later rows the adjust=True
weighted recurrence, in which the previous value is decayed together with
its accumulated weight and the quotient is renormalized. -/
def emaSpecAdjusted (s : ℚ) (close ema : List ℚ) : Prop :=
  ema.length = close.length ∧
  ema.getD 0 0 = close.getD 0 0 ∧
  ∀ i : Nat, 1 ≤ i → i < close.length →
    ema.getD i 0 =
      (close.getD i 0 +
        (1 - alphaOfSpan s) * ewmDen (alphaOfSpan s) (i - 1) * ema.getD (i - 1) 0) /
        ewmDen (alphaOfSpan s) i

/-- The ewm series satisfies the adjusted contract whenever the decay
weight is nonnegative. -/
lemma emaSpecAdjusted_of_ewm (s : ℚ) (hb : 0 ≤ 1 - alphaOfSpan s)
    (close : List ℚ) (hne : close ≠ []) :
    emaSpecAdjusted s close (ewmMean (alphaOfSpan s) close) := by
  refine ⟨ewmAux_length _ _ _ _, ?_, ?_⟩
  · have h0 : 0 < close.length := List.length_pos.mpr hne
    rw [ewmMean_getD _ _ 0 h0, cumWeightedEMA_zero]
  · intro i h1 hi
    obtain ⟨j, rfl⟩ : ∃ j, i = j + 1 := ⟨i - 1, (Nat.succ_pred_eq_of_pos h1).symm⟩
    have hj : j < close.length := Nat.lt_of_succ_lt hi
    simp only [Nat.add_sub_cancel]
    rw [ewmMean_getD _ _ (j + 1) hi, ewmMean_getD _ _ j hj]
    exact cumWeightedEMA_succ _ hb close j

/-- C1 counterexample: on the two-row table with closes 1 and 2 the
EMA-9 value at index 1 is 14/9 (the adjust=True cumulative weighting),
not the 6/5 predicted by the simple recursive form
ema[1] = a * close[1] + (1 - a) * ema[0]. -/
theorem C1_counterexample :
    ¬ ((enrich hTwo).ema9.getD 1 0 =
      alphaOfSpan 9 * hTwo.close.getD 1 0 +
        (1 - alphaOfSpan 9) * (enrich hTwo).ema9.getD 0 0) := by
  norm_num [enrich, hTwo, historyOfCloses, ewmMean, ewmAux, alphaOfSpan]

/-- C1 (amended): for every non-empty price history and each span s in
\x7b9, 50, 200\x7d the enriched EMA series has the length of the input and
starts at close[0], and for i at least 1 it satisfies the adjust=True
weighted recurrence ema[i] = (close[i] + (1-a) * W(i-1) * ema[i-1]) / W(i)
with W(i) the cumulative weight sum; the simple recursive form of the
original claim does not hold. -/
theorem C1_ema_adjusted_recurrence (h : PriceHistory) (hne : h.close ≠ []) :
    emaSpecAdjusted 9 h.close (enrich h).ema9 ∧
    emaSpecAdjusted 50 h.close (enrich h).ema50 ∧
    emaSpecAdjusted 200 h.close (enrich h).ema200 :=
  ⟨emaSpecAdjusted_of_ewm 9 (by norm_num [alphaOfSpan]) _ hne,
   emaSpecAdjusted_of_ewm 50 (by norm_num [alphaOfSpan]) _ hne,
   emaSpecAdjusted_of_ewm 200 (by norm_num [alphaOfSpan]) _ hne⟩

/-- C1 witness: the amended contract holds on the concrete two-row
table. -/
theorem C1_ema_adjusted_recurrence_witness :
    emaSpecAdjusted 9 hTwo.close (enrich hTwo).ema9 ∧
    emaSpecAdjusted 50 hTwo.close (enrich hTwo).ema50 ∧
    emaSpecAdjusted 200 hTwo.close (enrich hTwo).ema200 :=
  C1_ema_adjusted_recurrence hTwo (by decide)

/-- C2: every enriched EMA value is the cumulative weighted average of
the closes seen so far, prior observations weighted by (1-a)^k and
normalized by the sum of weights seen so far, with a = 2/(s+1) for the
spans 9, 50 and 200. -/
theorem C2_ema_cumulative_weighted (h : PriceHistory) (_hne : h.close ≠ [])
    (i : Nat) (hi : i < h.close.length) :
    (enrich h).ema9.getD i 0 = cumWeightedEMA (alphaOfSpan 9) h.close i ∧
    (enrich h).ema50.getD i 0 = cumWeightedEMA (alphaOfSpan 50) h.close i ∧
    (enrich h).ema200.getD i 0 = cumWeightedEMA (alphaOfSpan 200) h.close i :=
  ⟨ewmMean_getD _ _ i hi, ewmMean_getD _ _ i hi, ewmMean_getD _ _ i hi⟩

/-- C2 witness: the cumulative weighted description evaluated on the
two-row table at index 1. -/
theorem C2_ema_cumulative_weighted_witness :
    (enrich hTwo).ema9.getD 1 0 = cumWeightedEMA (alphaOfSpan 9) hTwo.close 1 ∧
    (enrich hTwo).ema50.getD 1 0 = cumWeightedEMA (alphaOfSpan 50) hTwo.close 1 ∧
    (enrich hTwo).ema200.getD 1 0 = cumWeightedEMA (alphaOfSpan 200) hTwo.close 1 :=
  C2_ema_cumulative_weighted hTwo (by decide) 1 (by decide)

/-- C3: on an empty price table fetch_stock_data raises and catches the
ValueError and hands none to its caller; it produces no enriched output,
and the provider-failure path likewise yields none. -/
theorem C3_empty_input_signals_none (h : PriceHistory) (he : h.isEmpty = true) :
    fetch_stock_data (some h) = none ∧ fetch_stock_data none = none := by
  constructor
  · simp [fetch_stock_data, he]
  · rfl

/-- C3 witness: the empty table. -/
theorem C3_empty_input_signals_none_witness :
    fetch_stock_data (some hEmpty) = none ∧ fetch_stock_data none = none :=
  C3_empty_input_signals_none hEmpty rfl

/-- C4: on a non-empty table the Returns column has one row per input
row, its first entry is the explicit no-value marker none, and every
later entry is the exact fractional change of the close. -/
theorem C4_daily_return_spec (h : PriceHistory) (hne : h.close ≠ []) :
    (enrich h).returns.length = h.close.length ∧
    (enrich h).returns.getD 0 none = none ∧
    ∀ i : Nat, 1 ≤ i → i < h.close.length →
      (enrich h).returns.getD i none =
        some ((h.close.getD i 0 - h.close.getD (i - 1) 0) /
          h.close.getD (i - 1) 0) := by
  obtain ⟨x, xs, hx⟩ := List.exists_cons_of_ne_nil hne
  simp only [enrich]
  refine ⟨pctChange_length _, ?_, ?_⟩
  · rw [hx]; rfl
  · intro i h1 hi
    obtain ⟨j, rfl⟩ : ∃ j, i = j + 1 := ⟨i - 1, (Nat.succ_pred_eq_of_pos h1).symm⟩
    rw [hx] at hi ⊢
    have hj : j < xs.length := by
      simpa using Nat.lt_of_succ_lt_succ hi
    simp only [pctChange, List.getD_cons_succ, Nat.add_sub_cancel]
    exact pctChangeAux_getD xs j hj x

/-- C4 witness: the three-row table. -/
theorem C4_daily_return_spec_witness :
    (enrich hThree).returns.length = hThree.close.length ∧
    (enrich hThree).returns.getD 0 none = none ∧
    ∀ i : Nat, 1 ≤ i → i < hThree.close.length →
      (enrich hThree).returns.getD i none =
        some ((hThree.close.getD i 0 - hThree.close.getD (i - 1) 0) /
          hThree.close.getD (i - 1) 0) :=
  C4_daily_return_spec hThree (by decide)

/-- C5: the annualized figures are computed from the defined daily
returns as sample-variance square root times sqrt(252) times 100 and
arithmetic mean times 252 times 100, and on any flat close series of at
least three bars at a positive constant both figures are zero. -/
theorem C5_annualized_stats :
    (∀ e : EnrichedHistory,
      (summarizeE e).annualizedVolatilityPct =
        (sampleVarQ (definedReturns e.returns)).map
          (fun v => Real.sqrt (v : ℝ) * Real.sqrt 252 * 100) ∧
      (summarizeE e).annualizedReturnPct =
        (meanQ (definedReturns e.returns)).map (fun m => m * 252 * 100)) ∧
    (∀ (c : ℚ) (n : Nat) (h : PriceHistory), 0 < c → 3 ≤ n →
      h.close = List.replicate n c →
      (summarizeE (enrich h)).annualizedVolatilityPct = some 0 ∧
      (summarizeE (enrich h)).annualizedReturnPct = some 0) := by
  refine ⟨fun e => ⟨rfl, rfl⟩, ?_⟩
  intro c n h _hc hn hh
  obtain ⟨m, rfl⟩ : ∃ m, n = m + 3 := ⟨n - 3, by omega⟩
  have hr : (enrich h).returns = none :: List.replicate (m + 2) (some 0) := by
    simp only [enrich]
    rw [hh]
    exact pctChange_replicate c (m + 2)
  have hd : definedReturns (enrich h).returns = List.replicate (m + 2) 0 := by
    rw [hr, definedReturns_cons_none, definedReturns_replicate_some_zero]
  constructor
  · show (sampleVarQ (definedReturns (enrich h).returns)).map
        (fun v => Real.sqrt (v : ℝ) * Real.sqrt 252 * 100) = some 0
    rw [hd, sampleVarQ_replicate_zero]
    simp
  · show (meanQ (definedReturns (enrich h).returns)).map
        (fun m => m * 252 * 100) = some 0
    rw [hd, show m + 2 = m + 1 + 1 from rfl, meanQ_replicate_zero]
    simp

/-- C5 witness: the flat ten-row table at close 100. -/
theorem C5_annualized_stats_witness :
    (summarizeE (enrich hFlatTen)).annualizedVolatilityPct = some 0 ∧
    (summarizeE (enrich hFlatTen)).annualizedReturnPct = some 0 :=
  C5_annualized_stats.2 100 10 hFlatTen (by norm_num) (by norm_num) rfl

/-- C6: on None or an empty table the chart builder returns zero traces
with the no-data annotation set and the stats builder returns the
placeholder pane; both are total functions, so neither raises. -/
theorem C6_no_data_placeholders (data : Option EnrichedHistory) (sym : String)
    (hd : data = none ∨ ∃ e, data = some e ∧ e.base.isEmpty = true) :
    (create_stock_chart data sym).traces.length = 0 ∧
    (create_stock_chart data sym).noDataNote = true ∧
    create_stats_panel data = StatsPanel.noData := by
  rcases hd with rfl | ⟨e, rfl, he⟩
  · exact ⟨rfl, rfl, rfl⟩
  · simp [create_stock_chart, create_stats_panel, he]

/-- C6 witness: the None input with the dashboard symbol. -/
theorem C6_no_data_placeholders_witness :
    (create_stock_chart none gspc).traces.length = 0 ∧
    (create_stock_chart none gspc).noDataNote = true ∧
    create_stats_panel none = StatsPanel.noData :=
  C6_no_data_placeholders none gspc (Or.inl rfl)

/-- C7: with exactly one bar the previous close falls back to the
current close, so the daily change and the period return are both
zero. -/
theorem C7_single_bar_zero_change (h : PriceHistory) (c : ℚ) (_hc : 0 < c)
    (hh : h.close = [c]) :
    (summarizeE (enrich h)).dailyChange = 0 ∧
    (summarizeE (enrich h)).periodReturnPct = 0 := by
  constructor <;> simp [summarizeE, enrich, PriceHistory.nrows, hh]

/-- C7 witness: the single-bar table at close 100. -/
theorem C7_single_bar_zero_change_witness :
    (summarizeE (enrich hOne)).dailyChange = 0 ∧
    (summarizeE (enrich hOne)).periodReturnPct = 0 :=
  C7_single_bar_zero_change hOne 100 (by norm_num) rfl

/-- C8: the period return is the relative change from the first to the
last close, in percent. -/
theorem C8_period_return_formula (h : PriceHistory) (_hne : h.close ≠ []) :
    (summarizeE (enrich h)).periodReturnPct =
      (h.close.getLastD 0 - h.close.headD 0) / h.close.headD 0 * 100 := rfl

/-- C8 witness: on closes 100, 110, 121 the period return is 21. -/
theorem C8_period_return_formula_witness :
    (summarizeE (enrich hThree)).periodReturnPct = 21 := by
  rw [C8_period_return_formula hThree (by decide)]
  norm_num [hThree, historyOfCloses, List.getLastD]

/-- C9: adding the derived columns leaves the fetched observations and
the row count untouched: the base table of the enriched result is the
input table, column by column. -/
theorem C9_enrich_preserves_input (h : PriceHistory) (_hne : h.close ≠ []) :
    (enrich h).base.open_ = h.open_ ∧
    (enrich h).base.high = h.high ∧
    (enrich h).base.low = h.low ∧
    (enrich h).base.close = h.close ∧
    (enrich h).base.volume = h.volume ∧
    (enrich h).base.nrows = h.nrows ∧
    (enrich h).base = h :=
  ⟨rfl, rfl, rfl, rfl, rfl, rfl, rfl⟩

/-- C9 witness: the three-row table. -/
theorem C9_enrich_preserves_input_witness :
    (enrich hThree).base.open_ = hThree.open_ ∧
    (enrich hThree).base.high = hThree.high ∧
    (enrich hThree).base.low = hThree.low ∧
    (enrich hThree).base.close = hThree.close ∧
    (enrich hThree).base.volume = hThree.volume ∧
    (enrich hThree).base.nrows = hThree.nrows ∧
    (enrich hThree).base = hThree :=
  C9_enrich_preserves_input hThree (by decide)

/-- C10: with one bar there is no defined daily return, so both
annualized figures are the NaN marker none, and with two bars there is
exactly one defined return, so the sample deviation (needing two values)
is still none while the annualized return is defined. -/
theorem C10_small_history_nan_stats :
    (∀ (h : PriceHistory) (c : ℚ), h.close = [c] →
      definedReturns (enrich h).returns = [] ∧
      (summarizeE (enrich h)).annualizedReturnPct = none ∧
      (summarizeE (enrich h)).annualizedVolatilityPct = none) ∧
    (∀ (h : PriceHistory) (c1 c2 : ℚ), h.close = [c1, c2] →
      (definedReturns (enrich h).returns).length = 1 ∧
      (summarizeE (enrich h)).annualizedVolatilityPct = none ∧
      ((summarizeE (enrich h)).annualizedReturnPct).isSome = true) := by
  constructor
  · intro h c hh
    have hr : definedReturns (enrich h).returns = [] := by
      simp [enrich, hh, pctChange, pctChangeAux, definedReturns]
    refine ⟨hr, ?_, ?_⟩
    · show (meanQ (definedReturns (enrich h).returns)).map
          (fun m => m * 252 * 100) = none
      rw [hr]; rfl
    · show (sampleVarQ (definedReturns (enrich h).returns)).map
          (fun v => Real.sqrt (v : ℝ) * Real.sqrt 252 * 100) = none
      rw [hr]; rfl
  · intro h c1 c2 hh
    have hr : definedReturns (enrich h).returns = [(c2 - c1) / c1] := by
      simp [enrich, hh, pctChange, pctChangeAux, definedReturns]
    refine ⟨by rw [hr]; rfl, ?_, ?_⟩
    · show (sampleVarQ (definedReturns (enrich h).returns)).map
          (fun v => Real.sqrt (v : ℝ) * Real.sqrt 252 * 100) = none
      rw [hr]; rfl
    · show ((meanQ (definedReturns (enrich h).returns)).map
          (fun m => m * 252 * 100)).isSome = true
      rw [hr]; rfl

/-- C10 witness: the single-bar table and the two-bar table. -/
theorem C10_small_history_nan_stats_witness :
    (definedReturns (enrich hOne).returns = [] ∧
      (summarizeE (enrich hOne)).annualizedReturnPct = none ∧
      (summarizeE (enrich hOne)).annualizedVolatilityPct = none) ∧
    ((definedReturns (enrich hTwo).returns).length = 1 ∧
      (summarizeE (enrich hTwo)).annualizedVolatilityPct = none ∧
      ((summarizeE (enrich hTwo)).annualizedReturnPct).isSome = true) :=
  ⟨C10_small_history_nan_stats.1 hOne 100 rfl,
   C10_small_history_nan_stats.2 hTwo 1 2 rfl⟩
